import Mathlib

/-!
# Termitas download manager — verification of the download/progress subsystem

Shallow embedding of `src/hf/downloader.py` (`ModelDownloader`) and the parts of
`src/database/models_db.py` (`ModelsDatabase`) that it uses.  The Manager and the
Record Store are modelled as a sequential state machine: every public operation
(`start_download`, `pause_download`, `resume_download`, `cancel_download`) and every
internal terminal event of the background worker (`_download_worker` finishing with
success or failure) is a step on an explicit `ManagerState`.  The directory-polling
monitor loop (`_monitor_download_progress`) is embedded separately as a pure step
function over its loop state, since it only mutates the in-memory progress snapshot.

Python floats are modelled as exact rationals (`ℚ`); the claims under study are
inequalities that are robust to the rounding difference.  The SQLite tables are
modelled as lists of rows; `INSERT` appends, `UPDATE ... WHERE id = ?` maps over the
list, and the `models.model_id UNIQUE` constraint with `INSERT OR REPLACE` is an
upsert.  Filesystem existence is a list of paths.
-/

namespace Termitas

/-- Status values used by `DownloadProgress.status` and the `downloads` table
(`'starting', 'downloading', 'paused', 'completed', 'failed', 'cancelled'`). -/
inductive PStatus where
  | starting
  | downloading
  | paused
  | completed
  | failed
  | cancelled
deriving DecidableEq, Repr

/-- A status is non-terminal when it is `downloading` or `paused` — the statuses the
`downloads` table treats as active (`status IN ('downloading', 'paused')`). -/
def nonTerminal : PStatus → Bool
  | .downloading => true
  | .paused => true
  | _ => false

/-- In-flight statuses of the monitoring loop guard
(`progress.status in ['downloading', 'starting']`). -/
def inFlight : PStatus → Bool
  | .downloading => true
  | .starting => true
  | _ => false

/-- The in-memory progress snapshot (`DownloadProgress` dataclass, downloader.py
lines 11-21). `download_speed` and `eta_seconds` are elided: no claim mentions them. -/
structure DownloadProgress where
  model_id : String
  progress_percent : ℚ := 0
  downloaded_bytes : ℕ := 0
  total_bytes : ℚ := 0
  status : PStatus := .starting
  error_message : Option String := none
deriving DecidableEq, Repr

/-- One row of the `downloads` table (models_db.py lines 68-84). -/
structure DownloadRow where
  id : ℕ
  model_id : String
  status : PStatus
  progress_percent : ℚ := 0
  downloaded_bytes : ℕ := 0
  total_bytes : ℚ := 0
  error_message : Option String := none
deriving DecidableEq, Repr

/-- One row of the `models` table (models_db.py lines 47-65); `model_id` is UNIQUE. -/
structure ModelRow where
  model_id : String
  display_name : String
  local_path : String
  size_bytes : ℕ := 0
deriving DecidableEq, Repr

/-- Per-download bookkeeping held in `active_downloads` (downloader.py lines 73-83). -/
structure Session where
  download_id : ℕ
  local_path : String
  progress : DownloadProgress
  stop_event : Bool := false
  pause_event : Bool := false
deriving DecidableEq, Repr

/-- Combined state of the `ModelDownloader` instance, the SQLite database and the
filesystem.  `log` records every snapshot handed to a registered progress callback
by `_notify_progress`, in order. -/
structure ManagerState where
  downloads : List DownloadRow := []
  models : List ModelRow := []
  next_id : ℕ := 1
  active : List (String × Session) := []
  callbacks : List String := []
  disk : List String := []
  log : List DownloadProgress := []
deriving DecidableEq, Repr

/-- `get_models_dir() / model_id.replace('/', '_')` (downloader.py line 67): every
slash of the model id becomes an underscore (character-wise, as the pattern is a
single character). -/
def modelDirPath (mid : String) : String :=
  "models/" ++ String.mk (mid.toList.map (fun c => if c = '/' then '_' else c))

/-- `ModelsDatabase.get_model`: first row of `models` with the given id. -/
def getModel (st : ManagerState) (mid : String) : Option ModelRow :=
  st.models.find? (fun m => m.model_id == mid)

/-- `ModelsDatabase.is_model_downloaded` (models_db.py lines 199-207): the record
must exist and its `local_path` must still exist on disk. -/
def isModelDownloaded (st : ManagerState) (mid : String) : Bool :=
  match getModel st mid with
  | none => false
  | some m => st.disk.contains m.local_path

/-- `ModelDownloader.is_downloading`: membership in `active_downloads`. -/
def isDownloading (st : ManagerState) (mid : String) : Bool :=
  (st.active.find? (fun p => p.1 == mid)).isSome

/-- `ModelDownloader.get_download_progress`: `None` when not active, else the
session's live snapshot. -/
def getDownloadProgress (st : ManagerState) (mid : String) : Option DownloadProgress :=
  (st.active.find? (fun p => p.1 == mid)).map (fun p => p.2.progress)

/-- `ModelsDatabase.start_download`: INSERT a fresh `downloads` row with status
`'downloading'`; returns the new row id (`lastrowid`). -/
def dbStartDownload (st : ManagerState) (mid : String) : ℕ × ManagerState :=
  (st.next_id,
   { st with
     downloads := st.downloads ++ [{ id := st.next_id, model_id := mid, status := .downloading }]
     next_id := st.next_id + 1 })

/-- `UPDATE downloads SET ... WHERE id = ?`: apply `f` to the row with the given id. -/
def rowUpdate (rows : List DownloadRow) (did : ℕ) (f : DownloadRow → DownloadRow) :
    List DownloadRow :=
  rows.map (fun r => if r.id == did then f r else r)

/-- `UPDATE downloads SET status = 'paused' WHERE id = ?`. -/
def dbPause (rows : List DownloadRow) (did : ℕ) : List DownloadRow :=
  rowUpdate rows did (fun r => { r with status := .paused })

/-- `UPDATE downloads SET status = 'downloading' WHERE id = ?`. -/
def dbResume (rows : List DownloadRow) (did : ℕ) : List DownloadRow :=
  rowUpdate rows did (fun r => { r with status := .downloading })

/-- `ModelsDatabase.complete_download`: terminal status plus error message. -/
def dbComplete (rows : List DownloadRow) (did : ℕ) (success : Bool)
    (err : Option String) : List DownloadRow :=
  rowUpdate rows did (fun r =>
    { r with status := if success then .completed else .failed, error_message := err })

/-- `ModelsDatabase.update_download_progress`: progress columns of one row. -/
def dbUpdateProgress (rows : List DownloadRow) (did : ℕ) (pct : ℚ) (db : ℕ) (tb : ℚ) :
    List DownloadRow :=
  rowUpdate rows did (fun r =>
    { r with progress_percent := pct, downloaded_bytes := db, total_bytes := tb })

/-- `INSERT OR REPLACE INTO models` followed by the explicit
`UPDATE models SET size_bytes = ?` (downloader.py lines 256-279), collapsed into one
upsert with the final `size_bytes` already in place. -/
def upsertModel (l : List ModelRow) (m : ModelRow) : List ModelRow :=
  if l.any (fun r => r.model_id == m.model_id) then
    l.map (fun r => if r.model_id == m.model_id then m else r)
  else l ++ [m]

/-- Replace the session stored for `mid` in `active_downloads`. -/
def updateSession (st : ManagerState) (mid : String) (s : Session) : ManagerState :=
  { st with active := st.active.map (fun p => if p.1 == mid then (p.1, s) else p) }

/-- `ModelDownloader._notify_progress`: when a callback is registered for `mid`, the
current snapshot from `active_downloads` is passed to it (recorded in `log`).  When
`mid` is missing from `active_downloads`, the `KeyError` is swallowed by the
`except` block, so nothing is delivered. -/
def notifyProgress (st : ManagerState) (mid : String) : ManagerState :=
  { st with
    log := st.log ++
      (if st.callbacks.contains mid then
        ((st.active.find? (fun p => p.1 == mid)).map (fun p => p.2.progress)).toList
      else []) }

/-- `ModelDownloader._cleanup_download`: drop `mid` from `active_downloads` and from
`progress_callbacks`. -/
def cleanupDownload (st : ManagerState) (mid : String) : ManagerState :=
  { st with
    active := st.active.filter (fun p => !(p.1 == mid))
    callbacks := st.callbacks.filter (fun c => !(c == mid)) }

/-- `mkdir(parents=True, exist_ok=True)`: the path now exists. -/
def mkdirPath (disk : List String) (path : String) : List String :=
  if disk.contains path then disk else disk ++ [path]

/-- `model_id.split('/')[-1]` (downloader.py line 258). -/
def lastComponent (mid : String) : String :=
  (mid.splitOn "/").getLastD mid

/-- Session mutation performed by `pause_download` (lines 107-108). -/
def pausedSession (s : Session) : Session :=
  { s with pause_event := true, progress := { s.progress with status := .paused } }

/-- Session mutation performed by `resume_download` (lines 124-125). -/
def resumedSession (s : Session) : Session :=
  { s with pause_event := false, progress := { s.progress with status := .downloading } }

/-- Session mutation performed by `cancel_download` (lines 141-142). -/
def cancelledSession (s : Session) : Session :=
  { s with stop_event := true, progress := { s.progress with status := .cancelled } }

/-- Session state after the worker's success epilogue (lines 238, 243-250). -/
def completedSession (s : Session) (measured : ℕ) : Session :=
  { s with
    stop_event := true
    progress := { s.progress with
      status := .completed
      progress_percent := (100 : ℚ)
      downloaded_bytes := measured
      total_bytes := (measured : ℚ) } }

/-- Session state after the worker's failure handler (lines 295-296 / 302-303). -/
def failedSession (s : Session) (msg : String) : Session :=
  { s with progress := { s.progress with status := .failed, error_message := some msg } }

/-- `ModelDownloader.start_download` (downloader.py lines 47-99): refuse when the id
is already downloading or already downloaded; otherwise insert the attempt row,
create the directory, register the session and the callback, and return `true`.
(`db.start_download` cannot fail in the model, so the `download_id == -1` branch is
unreachable.) -/
def startDownload (st : ManagerState) (mid : String) : Bool × ManagerState :=
  if isDownloading st mid then (false, st)
  else if isModelDownloaded st mid then (false, st)
  else
    let did := (dbStartDownload st mid).1
    let st1 := (dbStartDownload st mid).2
    let dir := modelDirPath mid
    let st2 := { st1 with disk := mkdirPath st1.disk dir }
    let sess : Session := { download_id := did, local_path := dir, progress := { model_id := mid } }
    (true,
     { st2 with
       active := st2.active ++ [(mid, sess)]
       callbacks := st2.callbacks ++ [mid] })

/-- `ModelDownloader.pause_download` (downloader.py lines 101-116). -/
def pauseDownload (st : ManagerState) (mid : String) : Bool × ManagerState :=
  match st.active.find? (fun p => p.1 == mid) with
  | none => (false, st)
  | some p =>
    let s := p.2
    let st1 := updateSession st mid (pausedSession s)
    let st2 := { st1 with downloads := dbPause st1.downloads s.download_id }
    (true, notifyProgress st2 mid)

/-- `ModelDownloader.resume_download` (downloader.py lines 118-133). -/
def resumeDownload (st : ManagerState) (mid : String) : Bool × ManagerState :=
  match st.active.find? (fun p => p.1 == mid) with
  | none => (false, st)
  | some p =>
    let s := p.2
    let st1 := updateSession st mid (resumedSession s)
    let st2 := { st1 with downloads := dbResume st1.downloads s.download_id }
    (true, notifyProgress st2 mid)

/-- `ModelDownloader.cancel_download` (downloader.py lines 135-154): set the stop
event, flip the snapshot to `cancelled`, mark the attempt row failed with message
"Download cancelled by user", and clean up.  No progress notification is sent. -/
def cancelDownload (st : ManagerState) (mid : String) : Bool × ManagerState :=
  match st.active.find? (fun p => p.1 == mid) with
  | none => (false, st)
  | some p =>
    let s := p.2
    let st1 := updateSession st mid (cancelledSession s)
    let st2 := { st1 with
      downloads := dbComplete st1.downloads s.download_id false (some "Download cancelled by user") }
    (true, cleanupDownload st2 mid)

/-- Success path of `ModelDownloader._download_worker` after `snapshot_download`
returns (downloader.py lines 243-284 plus the `finally` block 306-311).  The worker
acts on the `download_info` it captured at spawn time (line 158), here the session
value `s`: it writes ITS OWN attempt row (`download_info['download_id']`, line 284)
and upserts the ModelRecord with ITS OWN destination (`s.local_path`, line 259) and
the measured directory size — while `_notify_progress` and `_cleanup_download` are
keyed by `model_id` and hit whatever session currently occupies `active_downloads`.
The captured snapshot object is the registered one exactly when the registered
session still has the captured `download_id` (row ids are never reused); a stale
worker's snapshot mutations land on an orphaned object and are unobservable, but
its cleanup still deregisters the current session. -/
def workerComplete (st : ManagerState) (mid : String) (s : Session) (measured : ℕ) :
    ManagerState :=
  let st0 :=
    match st.active.find? (fun p => p.1 == mid) with
    | none => st
    | some p =>
      if p.2.download_id == s.download_id then
        updateSession st mid (completedSession p.2 measured)
      else st
  let st1 := notifyProgress st0 mid
  let st2 := { st1 with
    models := upsertModel st1.models
      { model_id := mid
        display_name := lastComponent mid
        local_path := s.local_path
        size_bytes := measured } }
  let st3 := { st2 with downloads := dbComplete st2.downloads s.download_id true none }
  let st4 := notifyProgress st3 mid
  cleanupDownload st4 mid

/-- Failure path of `ModelDownloader._download_worker` (downloader.py lines 292-304
plus the `finally` block), with the same captured-`download_info` semantics as
`workerComplete`: the snapshot flip to `failed` reaches the registered session only
when it still is the captured one, the attempt row written is the worker's own
(`s.download_id`), the final notification reads the current map entry, and the
cleanup removes whichever session now holds `model_id`. -/
def workerFail (st : ManagerState) (mid : String) (s : Session) (msg : String) :
    ManagerState :=
  let st0 :=
    match st.active.find? (fun p => p.1 == mid) with
    | none => st
    | some p =>
      if p.2.download_id == s.download_id then
        updateSession st mid (failedSession p.2 msg)
      else st
  let st1 := { st0 with downloads := dbComplete st0.downloads s.download_id false (some msg) }
  let st2 := notifyProgress st1 mid
  cleanupDownload st2 mid

/-- External filesystem change: a path disappears from disk (e.g. the user deletes a
downloaded model directory outside the app), producing a stale ModelRecord. -/
def diskDelete (st : ManagerState) (path : String) : ManagerState :=
  { st with disk := st.disk.filter (fun q => !(q == path)) }

/-- The Manager operations and worker terminal events, as state-machine labels.  A
worker event carries the `download_info` the worker captured when it was spawned
(`s`), since a worker can outlive a `cancel` — `progress_hook` is never wired into
`snapshot_download` (lines 228-233), so cancellation cannot interrupt the blocking
call, and the worker's epilogue may run after its session was replaced. -/
inductive Event where
  | start (mid : String)
  | pause (mid : String)
  | resume (mid : String)
  | cancel (mid : String)
  | workerComplete (mid : String) (s : Session) (measured : ℕ)
  | workerFail (mid : String) (s : Session) (msg : String)
  | diskDelete (path : String)
deriving DecidableEq, Repr

/-- One step of the sequential machine. -/
def step (st : ManagerState) : Event → ManagerState
  | .start mid => (startDownload st mid).2
  | .pause mid => (pauseDownload st mid).2
  | .resume mid => (resumeDownload st mid).2
  | .cancel mid => (cancelDownload st mid).2
  | .workerComplete mid s measured => workerComplete st mid s measured
  | .workerFail mid s msg => workerFail st mid s msg
  | .diskDelete path => diskDelete st path

/-- States reachable from a fresh `ModelDownloader` over an empty database. -/
inductive Reachable : ManagerState → Prop where
  | init : Reachable {}
  | tick {st : ManagerState} (h : Reachable st) (e : Event) : Reachable (step st e)

/-- Number of non-terminal `downloads` rows for one model id. -/
def nonterminalCount (st : ManagerState) (mid : String) : ℕ :=
  (st.downloads.filter (fun r => r.model_id == mid && nonTerminal r.status)).length

/-! ## Size estimation heuristic (`_estimate_model_size`, downloader.py 422-449) -/

/-- `pat in s` on Python strings: substring containment. -/
def strContains (s pat : String) : Bool :=
  decide (pat.toList <:+: s.toList)

/-- ASCII lower-casing of one character, as `str.lower()` behaves on the ASCII
model identifiers at issue. -/
def lowerChar (c : Char) : Char :=
  if 65 ≤ c.toNat ∧ c.toNat ≤ 90 then Char.ofNat (c.toNat + 32) else c

/-- `model_id.lower()` (ASCII). -/
def strLower (s : String) : String :=
  String.mk (s.toList.map lowerChar)

/-- Name-based fallback of `_estimate_model_size` (downloader.py lines 434-446):
lower-case the model id and test the size markers in source order. -/
def nameSizeEstimate (modelId : String) : ℕ :=
  let m := strLower modelId
  if strContains m "70b" || strContains m "72b" then 140000000000
  else if strContains m "33b" || strContains m "34b" then 68000000000
  else if strContains m "13b" then 26000000000
  else if strContains m "7b" then 14000000000
  else if strContains m "3b" then 6000000000
  else 10000000000

/-- `ModelDownloader._estimate_model_size`: prefer `safetensors['total'] * 2` when
the metadata is present and the total is non-zero (Python truthiness of
`total_params`), otherwise fall back to the name-based lookup. -/
def estimateModelSize (safetensorsTotal : Option ℕ) (modelId : String) : ℕ :=
  match safetensorsTotal with
  | some t => if t ≠ 0 then t * 2 else nameSizeEstimate modelId
  | none => nameSizeEstimate modelId

/-! ## Monitoring loop (`_monitor_download_progress`, downloader.py 313-409)

The loop samples the destination directory size every 0.5 s.  We embed its body as
a pure step function on the loop state (the progress snapshot plus the locals
`last_size` and `stable_count`), parameterised by the measured size of the sample;
a run processes a list of measured sizes while the loop guard
(`progress.status in ['downloading', 'starting']`) holds.  Speed/ETA bookkeeping is
elided: no claim mentions it and it feeds nothing else. -/

/-- Loop state of one monitor run. -/
structure MonState where
  progress_percent : ℚ := 0
  downloaded_bytes : ℕ := 0
  total_bytes : ℚ := 0
  status : PStatus := .downloading
  last_size : ℕ := 0
  stable_count : ℕ := 0
deriving DecidableEq, Repr

/-- A progress notification as observed by the callback: the fields of the snapshot
at `_notify_progress` time that the claims mention. -/
structure MonNotif where
  progress_percent : ℚ
  downloaded_bytes : ℕ
  total_bytes : ℚ
  status : PStatus
deriving DecidableEq, Repr

/-- `50 * 1024 * 1024` — minimum plausible size for heuristic completion. -/
def minCompleteBytes : ℕ := 50 * 1024 * 1024

/-- Loop body for one sample of measured directory size (downloader.py lines
347-407).  Growth branch: update `downloaded_bytes`; if a total estimate exists and
the measured size exceeds it, inflate the estimate to `size + size * 0.1` before
computing the percent; with no estimate, use the bytes-based proxy capped at 95%;
notify and reset `stable_count`.  No-growth branch: bump `stable_count`; once it
reaches 20 consecutive samples (10 s at 0.5 s/sample) with more than 50MB on disk,
snap to 100%, adopt the measured size as the final total, mark completed, notify. -/
def monitorStep (st : MonState) (size : ℕ) : MonState × Option MonNotif :=
  if size > st.last_size then
    let newTotal : ℚ :=
      if st.total_bytes > 0 then
        if (size : ℚ) > st.total_bytes then (size : ℚ) + (size : ℚ) * (1 / 10)
        else st.total_bytes
      else st.total_bytes
    let newPct : ℚ :=
      if st.total_bytes > 0 then (size : ℚ) / newTotal * 100
      else min ((size : ℚ) / (100 * 1024 * 1024) * 100) 95
    ({ st with
       downloaded_bytes := size
       total_bytes := newTotal
       progress_percent := newPct
       last_size := size
       stable_count := 0 },
     some ⟨newPct, size, newTotal, st.status⟩)
  else
    if st.stable_count + 1 ≥ 20 ∧ size > minCompleteBytes then
      ({ st with
         stable_count := st.stable_count + 1
         progress_percent := 100
         total_bytes := (size : ℚ)
         status := .completed },
       some ⟨100, st.downloaded_bytes, (size : ℚ), .completed⟩)
    else ({ st with stable_count := st.stable_count + 1 }, none)

/-- Run the monitor loop over a list of samples, collecting the notifications.  The
loop guard re-checks `inFlight` before each sample, so the run stops once the
heuristic completion fires (or the status is otherwise terminal). -/
def runMonitor (st : MonState) : List ℕ → MonState × List MonNotif
  | [] => (st, [])
  | size :: rest =>
    if inFlight st.status then
      ((runMonitor (monitorStep st size).1 rest).1,
       (monitorStep st size).2.toList ++ (runMonitor (monitorStep st size).1 rest).2)
    else (st, [])

/-- Monitor seeding (downloader.py lines 328-331): when the snapshot's
`total_bytes` is still 0, adopt the size estimate. -/
def seedTotal (st : MonState) (estimate : ℕ) : MonState :=
  if st.total_bytes == 0 then { st with total_bytes := (estimate : ℚ) } else st

/-- Fresh session registered by an accepted `start_download`. -/
def freshSession (st : ManagerState) (mid : String) : Session :=
  { download_id := st.next_id, local_path := modelDirPath mid, progress := { model_id := mid } }

/-- Structural invariant tying `active_downloads` to the `downloads` table:
row ids are bounded by the autoincrement counter and duplicate-free, keys of
`active_downloads` are duplicate-free, and every active session points (by row id)
at rows of its own model id, at least one of which exists.  Note what is absent:
"every non-terminal row belongs to an active session" is NOT an invariant of this
machine — a worker outliving a `cancel` deregisters its successor's session while
leaving the successor's row non-terminal (see the C1 bug demonstration). -/
structure InvCore (dls : List DownloadRow) (nid : ℕ) (act : List (String × Session)) :
    Prop where
  idsLt : ∀ r ∈ dls, r.id < nid
  idsNodup : (dls.map (fun r => r.id)).Nodup
  keysNodup : (act.map Prod.fst).Nodup
  sidLt : ∀ pr ∈ act, pr.2.download_id < nid
  sessionRow : ∀ pr ∈ act, ∀ r ∈ dls, r.id = pr.2.download_id → r.model_id = pr.1
  sessionHasRow : ∀ pr ∈ act, ∃ r ∈ dls, r.id = pr.2.download_id

/-- The invariant, read off a `ManagerState`. -/
def Inv (st : ManagerState) : Prop := InvCore st.downloads st.next_id st.active

/-! ## List helpers -/

/-- In an association list with duplicate-free keys, a key determines its value. -/
theorem key_unique {β : Type} {k : String} {a b : β} :
    ∀ {l : List (String × β)}, (l.map Prod.fst).Nodup →
      (k, a) ∈ l → (k, b) ∈ l → a = b := by
  intro l
  induction l with
  | nil => intro _ ha _; cases ha
  | cons p t ih =>
    intro h ha hb
    simp only [List.map_cons, List.nodup_cons] at h
    rcases List.mem_cons.mp ha with ha' | ha' <;> rcases List.mem_cons.mp hb with hb' | hb'
    · simpa using congrArg Prod.snd (ha'.trans hb'.symm)
    · refine absurd ?_ h.1
      rw [← ha']
      exact show k ∈ t.map Prod.fst from List.mem_map_of_mem Prod.fst hb'
    · refine absurd ?_ h.1
      rw [← hb']
      exact show k ∈ t.map Prod.fst from List.mem_map_of_mem Prod.fst ha'
    · exact ih h.2 ha' hb'

/-- A list whose `f`-image is duplicate-free yet constant has at most one element. -/
theorem length_le_one_of_const {α β : Type} {l : List α} {f : α → β} {c : β}
    (hn : (l.map f).Nodup) (hc : ∀ x ∈ l, f x = c) : l.length ≤ 1 := by
  match l with
  | [] => simp
  | [a] => simp
  | a :: b :: t =>
    exfalso
    simp only [List.map_cons, List.nodup_cons] at hn
    have hb : f b ∈ List.map f (b :: t) := List.mem_map_of_mem f (List.mem_cons_self b t)
    rw [hc b (List.mem_cons_of_mem a (List.mem_cons_self b t)),
        ← hc a (List.mem_cons_self a (b :: t))] at hb
    exact hn.1 hb

/-- `rowUpdate` with an id-preserving function leaves the multiset of ids intact. -/
theorem rowUpdate_map_id {rows : List DownloadRow} {did : ℕ} {f : DownloadRow → DownloadRow}
    (hf : ∀ r, (f r).id = r.id) :
    (rowUpdate rows did f).map (fun r => r.id) = rows.map (fun r => r.id) := by
  unfold rowUpdate
  rw [List.map_map]
  refine List.map_congr_left (fun r _ => ?_)
  show (if r.id == did then f r else r).id = r.id
  split <;> simp [hf]

/-- `rowUpdate` with a model-preserving function leaves the model ids intact. -/
theorem rowUpdate_map_model {rows : List DownloadRow} {did : ℕ} {f : DownloadRow → DownloadRow}
    (hf : ∀ r, (f r).model_id = r.model_id) :
    (rowUpdate rows did f).map (fun r => r.model_id) = rows.map (fun r => r.model_id) := by
  unfold rowUpdate
  rw [List.map_map]
  refine List.map_congr_left (fun r _ => ?_)
  show (if r.id == did then f r else r).model_id = r.model_id
  split <;> simp [hf]

/-- `updateSession` leaves the key list of `active_downloads` intact. -/
theorem updateSession_map_fst (st : ManagerState) (mid : String) (s : Session) :
    (updateSession st mid s).active.map Prod.fst = st.active.map Prod.fst := by
  unfold updateSession
  rw [List.map_map]
  refine List.map_congr_left (fun p _ => ?_)
  show (if p.1 == mid then (p.1, s) else p).1 = p.1
  split <;> rfl

/-- Removing the key `mid` after `updateSession mid` is the same as removing it
directly: the rewritten entries are exactly the removed ones. -/
theorem filter_updateSession (l : List (String × Session)) (mid : String) (s : Session) :
    (l.map (fun p => if p.1 == mid then (p.1, s) else p)).filter (fun q => !(q.1 == mid)) =
      l.filter (fun q => !(q.1 == mid)) := by
  induction l with
  | nil => rfl
  | cons p t ih =>
    simp only [beq_iff_eq] at ih
    by_cases h : p.1 = mid <;> simp [List.filter_cons, h, ih]

/-! ## The Manager invariant (claim C1's concurrency invariant) -/

theorem inv_init : Inv {} :=
  ⟨fun r hr => absurd hr (List.not_mem_nil r), List.nodup_nil, List.nodup_nil,
   fun pr hpr => absurd hpr (List.not_mem_nil pr),
   fun pr hpr => absurd hpr (List.not_mem_nil pr),
   fun pr hpr => absurd hpr (List.not_mem_nil pr)⟩

/-- Inserting a fresh attempt row together with its fresh session (the accepted
branch of `start_download`) preserves the invariant. -/
theorem invCore_insert {dls : List DownloadRow} {nid : ℕ} {act : List (String × Session)}
    (h : InvCore dls nid act) {mid : String} {sess : Session}
    (hkey : mid ∉ act.map Prod.fst) (hsid : sess.download_id = nid) :
    InvCore (dls ++ [{ id := nid, model_id := mid, status := .downloading }]) (nid + 1)
      (act ++ [(mid, sess)]) := by
  constructor
  · intro r hr
    rcases List.mem_append.mp hr with hr | hr
    · exact Nat.lt_trans (h.idsLt r hr) (Nat.lt_succ_self nid)
    · rw [List.mem_singleton] at hr
      subst hr
      exact Nat.lt_succ_self nid
  · rw [List.map_append, List.nodup_append]
    refine ⟨h.idsNodup, List.nodup_singleton _, ?_⟩
    intro x hx hx2
    simp only [List.map_cons, List.map_nil, List.mem_singleton] at hx2
    rcases List.mem_map.mp hx with ⟨r, hr, hid⟩
    have h1 : r.id < nid := h.idsLt r hr
    have h2 : r.id = nid := by rw [hid]; exact hx2
    omega
  · rw [List.map_append, List.nodup_append]
    refine ⟨h.keysNodup, List.nodup_singleton _, ?_⟩
    intro x hx hx2
    simp only [List.map_cons, List.map_nil, List.mem_singleton] at hx2
    subst hx2
    exact hkey hx
  · intro pr hpr
    rcases List.mem_append.mp hpr with hpr | hpr
    · exact Nat.lt_trans (h.sidLt pr hpr) (Nat.lt_succ_self nid)
    · rw [List.mem_singleton] at hpr
      subst hpr
      show sess.download_id < nid + 1
      rw [hsid]
      exact Nat.lt_succ_self nid
  · intro pr hpr r hr hid
    rcases List.mem_append.mp hpr with hpr | hpr <;> rcases List.mem_append.mp hr with hr | hr
    · exact h.sessionRow pr hpr r hr hid
    · rw [List.mem_singleton] at hr
      subst hr
      have h1 : pr.2.download_id < nid := h.sidLt pr hpr
      have h2 : nid = pr.2.download_id := hid
      omega
    · rw [List.mem_singleton] at hpr
      subst hpr
      have h1 : r.id < nid := h.idsLt r hr
      have h2 : r.id = nid := by rw [hid]; exact hsid
      omega
    · rw [List.mem_singleton] at hr
      rw [List.mem_singleton] at hpr
      subst hr
      subst hpr
      rfl
  · intro pr hpr
    rcases List.mem_append.mp hpr with hpr | hpr
    · rcases h.sessionHasRow pr hpr with ⟨r, hr, hid⟩
      exact ⟨r, List.mem_append_left _ hr, hid⟩
    · rw [List.mem_singleton] at hpr
      subst hpr
      exact ⟨_, List.mem_append_right _ (List.mem_singleton_self _), hsid.symm⟩

/-- Two entries of a duplicate-free-keyed association list with equal keys coincide. -/
theorem mem_eq_of_fst_eq {β : Type} {l : List (String × β)} (h : (l.map Prod.fst).Nodup)
    {q1 q2 : String × β} (h1 : q1 ∈ l) (h2 : q2 ∈ l) (he : q1.1 = q2.1) : q1 = q2 := by
  obtain ⟨k1, v1⟩ := q1
  obtain ⟨k2, v2⟩ := q2
  cases he
  rw [Prod.mk.injEq]
  exact ⟨rfl, key_unique h h1 h2⟩

theorem rowUpdate_mem_image {dls : List DownloadRow} {did : ℕ} {g : DownloadRow → DownloadRow}
    {r : DownloadRow} (hr : r ∈ dls) :
    (if r.id == did then g r else r) ∈ rowUpdate dls did g :=
  List.mem_map_of_mem _ hr

theorem mem_rowUpdate {dls : List DownloadRow} {did : ℕ} {g : DownloadRow → DownloadRow}
    {r' : DownloadRow} (h : r' ∈ rowUpdate dls did g) :
    ∃ r ∈ dls, (if r.id == did then g r else r) = r' :=
  List.mem_map.mp h

/-- Key list of the `updateSession` rewrite, at the list level. -/
theorem sessMap_map_fst (l : List (String × Session)) (mid : String) (s' : Session) :
    (l.map (fun q => if q.1 == mid then (q.1, s') else q)).map Prod.fst = l.map Prod.fst := by
  rw [List.map_map]
  refine List.map_congr_left (fun q _ => ?_)
  show (if q.1 == mid then (q.1, s') else q).1 = q.1
  split <;> rfl

/-- Replacing the active session of `mid` by one with the same `download_id`, while
updating its row to another non-terminal status (the shape of `pause_download` and
`resume_download`), preserves the invariant. -/
theorem invCore_signal {dls : List DownloadRow} {nid : ℕ} {act : List (String × Session)}
    (h : InvCore dls nid act) {mid : String} {p : String × Session}
    (hp : act.find? (fun q => q.1 == mid) = some p) (s' : Session)
    (hsid : s'.download_id = p.2.download_id)
    (g : DownloadRow → DownloadRow)
    (hgid : ∀ r, (g r).id = r.id) (hgmid : ∀ r, (g r).model_id = r.model_id) :
    InvCore (rowUpdate dls p.2.download_id g) nid
      (act.map (fun q => if q.1 == mid then (q.1, s') else q)) := by
  have hpmem : p ∈ act := List.mem_of_find?_eq_some hp
  have hpfst' : p.1 = mid := by simpa using List.find?_some hp
  constructor
  · intro r' hr'
    rcases mem_rowUpdate hr' with ⟨r, hr, heq⟩
    have hrid : r'.id = r.id := by rw [← heq]; split <;> simp [hgid]
    rw [hrid]
    exact h.idsLt r hr
  · rw [rowUpdate_map_id hgid]
    exact h.idsNodup
  · rw [sessMap_map_fst]
    exact h.keysNodup
  · intro pr' hpr'
    rcases List.mem_map.mp hpr' with ⟨q, hq, heq⟩
    by_cases hq1 : q.1 == mid
    · rw [if_pos hq1] at heq
      rw [← heq]
      show s'.download_id < nid
      rw [hsid]
      exact h.sidLt p hpmem
    · rw [if_neg hq1] at heq
      rw [← heq]
      exact h.sidLt q hq
  · intro pr' hpr' r' hr' hid'
    rcases List.mem_map.mp hpr' with ⟨q, hq, heqq⟩
    rcases mem_rowUpdate hr' with ⟨r, hr, heqr⟩
    have hrid : r'.id = r.id := by rw [← heqr]; split <;> simp [hgid]
    have hrmid : r'.model_id = r.model_id := by rw [← heqr]; split <;> simp [hgmid]
    by_cases hq1 : q.1 == mid
    · rw [if_pos hq1] at heqq
      rw [← heqq] at hid' ⊢
      have hrp : r.id = p.2.download_id := by rw [← hrid, hid', hsid]
      have hmods := h.sessionRow p hpmem r hr hrp
      show r'.model_id = q.1
      rw [hrmid, hmods, hpfst']
      exact (by simpa using hq1 : q.1 = mid).symm
    · rw [if_neg hq1] at heqq
      rw [← heqq] at hid' ⊢
      have : r.id = q.2.download_id := by rw [← hrid]; exact hid'
      rw [hrmid]
      exact h.sessionRow q hq r hr this
  · intro pr' hpr'
    rcases List.mem_map.mp hpr' with ⟨q, hq, heqq⟩
    by_cases hq1 : q.1 == mid
    · rcases h.sessionHasRow p hpmem with ⟨r, hr, hid⟩
      refine ⟨_, rowUpdate_mem_image hr, ?_⟩
      rw [← heqq, if_pos hq1]
      show (if r.id == p.2.download_id then g r else r).id = s'.download_id
      rw [hsid]
      split <;> simp [hgid, hid]
    · rcases h.sessionHasRow q hq with ⟨r, hr, hid⟩
      refine ⟨_, rowUpdate_mem_image hr, ?_⟩
      rw [← heqq, if_neg hq1]
      show (if r.id == p.2.download_id then g r else r).id = q.2.download_id
      split <;> simp [hgid, hid]

/-- Updating any single row (the terminal event writes the worker's own captured
row id, which need not belong to any registered session) while removing `mid` from
the session map preserves the invariant: this covers `cancel_download` and every
`_download_worker` ending, stale ones included. -/
theorem invCore_terminalAny {dls : List DownloadRow} {nid : ℕ} {act : List (String × Session)}
    (h : InvCore dls nid act) (mid : String) (did : ℕ)
    (g : DownloadRow → DownloadRow)
    (hgid : ∀ r, (g r).id = r.id) (hgmid : ∀ r, (g r).model_id = r.model_id) :
    InvCore (rowUpdate dls did g) nid
      (act.filter (fun q => !(q.1 == mid))) := by
  constructor
  · intro r' hr'
    rcases mem_rowUpdate hr' with ⟨r, hr, heq⟩
    have hrid : r'.id = r.id := by rw [← heq]; split <;> simp [hgid]
    rw [hrid]
    exact h.idsLt r hr
  · rw [rowUpdate_map_id hgid]
    exact h.idsNodup
  · exact List.Nodup.sublist (List.Sublist.map Prod.fst (List.filter_sublist act)) h.keysNodup
  · intro pr' hpr'
    exact h.sidLt pr' (List.mem_of_mem_filter hpr')
  · intro pr' hpr' r' hr' hid'
    rcases mem_rowUpdate hr' with ⟨r, hr, heq⟩
    have hrid : r'.id = r.id := by rw [← heq]; split <;> simp [hgid]
    have hrmid : r'.model_id = r.model_id := by rw [← heq]; split <;> simp [hgmid]
    rw [hrmid]
    exact h.sessionRow pr' (List.mem_of_mem_filter hpr') r hr (by rw [← hrid]; exact hid')
  · intro pr' hpr'
    rcases h.sessionHasRow pr' (List.mem_of_mem_filter hpr') with ⟨r, hr, hid⟩
    refine ⟨_, rowUpdate_mem_image hr, ?_⟩
    show (if r.id == did then g r else r).id = pr'.2.download_id
    split <;> simp [hgid, hid]

/-! ## Characterisations of the operations -/

@[simp] theorem notifyProgress_downloads (st : ManagerState) (mid : String) :
    (notifyProgress st mid).downloads = st.downloads := rfl

@[simp] theorem notifyProgress_models (st : ManagerState) (mid : String) :
    (notifyProgress st mid).models = st.models := rfl

@[simp] theorem notifyProgress_next_id (st : ManagerState) (mid : String) :
    (notifyProgress st mid).next_id = st.next_id := rfl

@[simp] theorem notifyProgress_active (st : ManagerState) (mid : String) :
    (notifyProgress st mid).active = st.active := rfl

@[simp] theorem notifyProgress_callbacks (st : ManagerState) (mid : String) :
    (notifyProgress st mid).callbacks = st.callbacks := rfl

@[simp] theorem notifyProgress_disk (st : ManagerState) (mid : String) :
    (notifyProgress st mid).disk = st.disk := rfl

theorem not_mem_keys_of_not_downloading {st : ManagerState} {mid : String}
    (h : isDownloading st mid = false) : mid ∉ st.active.map Prod.fst := by
  intro hmem
  rcases List.mem_map.mp hmem with ⟨q, hq, hfst⟩
  have h2 : (st.active.find? (fun q => q.1 == mid)).isSome = true :=
    List.find?_isSome.mpr ⟨q, hq, by simp [hfst]⟩
  unfold isDownloading at h
  rw [h2] at h
  simp at h

/-- `find?` for `mid` after rewriting `mid`'s session: returns the rewritten entry. -/
theorem find?_sessMap {l : List (String × Session)} {mid : String} {p : String × Session}
    (hp : l.find? (fun q => q.1 == mid) = some p) (s' : Session) :
    (l.map (fun q => if q.1 == mid then (q.1, s') else q)).find? (fun q => q.1 == mid) =
      some (p.1, s') := by
  rw [List.find?_map]
  have hcomp : ((fun q : String × Session => q.1 == mid) ∘
      (fun q => if q.1 == mid then (q.1, s') else q)) = (fun q => q.1 == mid) := by
    funext q
    show ((if q.1 == mid then (q.1, s') else q).1 == mid) = (q.1 == mid)
    split <;> simp_all
  rw [hcomp, hp]
  simp only [Option.map_some']
  rw [if_pos (List.find?_some hp)]

theorem startDownload_rejected_active {st : ManagerState} {mid : String}
    (hd : isDownloading st mid = true) : startDownload st mid = (false, st) := by
  unfold startDownload
  rw [if_pos hd]

theorem startDownload_rejected_downloaded {st : ManagerState} {mid : String}
    (hd : isDownloading st mid = false) (hm : isModelDownloaded st mid = true) :
    startDownload st mid = (false, st) := by
  unfold startDownload
  rw [if_neg (by simp [hd]), if_pos hm]

theorem startDownload_accepted {st : ManagerState} {mid : String}
    (hd : isDownloading st mid = false) (hm : isModelDownloaded st mid = false) :
    startDownload st mid =
      (true,
       { downloads := st.downloads ++
           [{ id := st.next_id, model_id := mid, status := .downloading }]
         models := st.models
         next_id := st.next_id + 1
         active := st.active ++ [(mid, freshSession st mid)]
         callbacks := st.callbacks ++ [mid]
         disk := mkdirPath st.disk (modelDirPath mid)
         log := st.log }) := by
  unfold startDownload
  rw [if_neg (by simp [hd]), if_neg (by simp [hm])]
  rfl

theorem pauseDownload_none {st : ManagerState} {mid : String}
    (hp : st.active.find? (fun q => q.1 == mid) = none) :
    pauseDownload st mid = (false, st) := by
  unfold pauseDownload
  rw [hp]

theorem pauseDownload_found {st : ManagerState} {mid : String} {p : String × Session}
    (hp : st.active.find? (fun q => q.1 == mid) = some p) :
    pauseDownload st mid =
      (true, notifyProgress
        { st with
          downloads := dbPause st.downloads p.2.download_id
          active := st.active.map
            (fun q => if q.1 == mid then (q.1, pausedSession p.2) else q) }
        mid) := by
  unfold pauseDownload
  rw [hp]
  rfl

theorem resumeDownload_none {st : ManagerState} {mid : String}
    (hp : st.active.find? (fun q => q.1 == mid) = none) :
    resumeDownload st mid = (false, st) := by
  unfold resumeDownload
  rw [hp]

theorem resumeDownload_found {st : ManagerState} {mid : String} {p : String × Session}
    (hp : st.active.find? (fun q => q.1 == mid) = some p) :
    resumeDownload st mid =
      (true, notifyProgress
        { st with
          downloads := dbResume st.downloads p.2.download_id
          active := st.active.map
            (fun q => if q.1 == mid then (q.1, resumedSession p.2) else q) }
        mid) := by
  unfold resumeDownload
  rw [hp]
  rfl

theorem cancelDownload_none {st : ManagerState} {mid : String}
    (hp : st.active.find? (fun q => q.1 == mid) = none) :
    cancelDownload st mid = (false, st) := by
  unfold cancelDownload
  rw [hp]

theorem cancelDownload_found {st : ManagerState} {mid : String} {p : String × Session}
    (hp : st.active.find? (fun q => q.1 == mid) = some p) :
    cancelDownload st mid =
      (true,
       { st with
         downloads := dbComplete st.downloads p.2.download_id false
           (some "Download cancelled by user")
         active := (st.active.map
             (fun q => if q.1 == mid then (q.1, cancelledSession p.2) else q)).filter
           (fun q => !(q.1 == mid))
         callbacks := st.callbacks.filter (fun c => !(c == mid)) }) := by
  unfold cancelDownload
  rw [hp]
  rfl

theorem workerComplete_nofind {st : ManagerState} {mid : String} {s : Session}
    {measured : ℕ} (hp : st.active.find? (fun q => q.1 == mid) = none) :
    workerComplete st mid s measured =
      { downloads := dbComplete st.downloads s.download_id true none
        models := upsertModel st.models
          { model_id := mid
            display_name := lastComponent mid
            local_path := s.local_path
            size_bytes := measured }
        next_id := st.next_id
        active := st.active.filter (fun q => !(q.1 == mid))
        callbacks := st.callbacks.filter (fun c => !(c == mid))
        disk := st.disk
        log := st.log } := by
  unfold workerComplete
  rw [hp]
  show cleanupDownload _ mid = _
  unfold cleanupDownload notifyProgress
  dsimp only
  rw [hp]
  by_cases hc : st.callbacks.contains mid = true <;> simp [hc]

theorem workerComplete_stale {st : ManagerState} {mid : String} {s : Session}
    {measured : ℕ} {p : String × Session}
    (hp : st.active.find? (fun q => q.1 == mid) = some p)
    (hdid : (p.2.download_id == s.download_id) = false) :
    workerComplete st mid s measured =
      { downloads := dbComplete st.downloads s.download_id true none
        models := upsertModel st.models
          { model_id := mid
            display_name := lastComponent mid
            local_path := s.local_path
            size_bytes := measured }
        next_id := st.next_id
        active := st.active.filter (fun q => !(q.1 == mid))
        callbacks := st.callbacks.filter (fun c => !(c == mid))
        disk := st.disk
        log := st.log ++
          (if st.callbacks.contains mid then [p.2.progress] else []) ++
          (if st.callbacks.contains mid then [p.2.progress] else []) } := by
  unfold workerComplete
  rw [hp]
  dsimp only
  rw [if_neg (by simp [hdid])]
  show cleanupDownload _ mid = _
  unfold cleanupDownload notifyProgress
  dsimp only
  rw [hp]
  by_cases hc : st.callbacks.contains mid = true <;> simp [hc, List.append_assoc]

theorem workerComplete_found {st : ManagerState} {mid : String} {s : Session}
    {measured : ℕ} {p : String × Session}
    (hp : st.active.find? (fun q => q.1 == mid) = some p)
    (hdid : (p.2.download_id == s.download_id) = true) :
    workerComplete st mid s measured =
      { downloads := dbComplete st.downloads s.download_id true none
        models := upsertModel st.models
          { model_id := mid
            display_name := lastComponent mid
            local_path := s.local_path
            size_bytes := measured }
        next_id := st.next_id
        active := (st.active.map
            (fun q => if q.1 == mid then (q.1, completedSession p.2 measured) else q)).filter
          (fun q => !(q.1 == mid))
        callbacks := st.callbacks.filter (fun c => !(c == mid))
        disk := st.disk
        log := st.log ++
          (if st.callbacks.contains mid then [(completedSession p.2 measured).progress] else []) ++
          (if st.callbacks.contains mid then [(completedSession p.2 measured).progress] else []) } := by
  have hfind2 := find?_sessMap hp (completedSession p.2 measured)
  unfold workerComplete
  rw [hp]
  dsimp only
  rw [if_pos hdid]
  show cleanupDownload _ mid = _
  unfold cleanupDownload notifyProgress updateSession
  dsimp only
  rw [hfind2]
  by_cases hc : st.callbacks.contains mid = true <;>
    simp [hc, List.append_assoc]

theorem workerFail_nofind {st : ManagerState} {mid : String} {s : Session} {msg : String}
    (hp : st.active.find? (fun q => q.1 == mid) = none) :
    workerFail st mid s msg =
      { downloads := dbComplete st.downloads s.download_id false (some msg)
        models := st.models
        next_id := st.next_id
        active := st.active.filter (fun q => !(q.1 == mid))
        callbacks := st.callbacks.filter (fun c => !(c == mid))
        disk := st.disk
        log := st.log } := by
  unfold workerFail
  rw [hp]
  show cleanupDownload _ mid = _
  unfold cleanupDownload notifyProgress
  dsimp only
  rw [hp]
  by_cases hc : st.callbacks.contains mid = true <;> simp [hc]

theorem workerFail_stale {st : ManagerState} {mid : String} {s : Session} {msg : String}
    {p : String × Session}
    (hp : st.active.find? (fun q => q.1 == mid) = some p)
    (hdid : (p.2.download_id == s.download_id) = false) :
    workerFail st mid s msg =
      { downloads := dbComplete st.downloads s.download_id false (some msg)
        models := st.models
        next_id := st.next_id
        active := st.active.filter (fun q => !(q.1 == mid))
        callbacks := st.callbacks.filter (fun c => !(c == mid))
        disk := st.disk
        log := st.log ++
          (if st.callbacks.contains mid then [p.2.progress] else []) } := by
  unfold workerFail
  rw [hp]
  dsimp only
  rw [if_neg (by simp [hdid])]
  show cleanupDownload _ mid = _
  unfold cleanupDownload notifyProgress
  dsimp only
  rw [hp]
  by_cases hc : st.callbacks.contains mid = true <;> simp [hc]

theorem workerFail_found {st : ManagerState} {mid : String} {s : Session} {msg : String}
    {p : String × Session}
    (hp : st.active.find? (fun q => q.1 == mid) = some p)
    (hdid : (p.2.download_id == s.download_id) = true) :
    workerFail st mid s msg =
      { downloads := dbComplete st.downloads s.download_id false (some msg)
        models := st.models
        next_id := st.next_id
        active := (st.active.map
            (fun q => if q.1 == mid then (q.1, failedSession p.2 msg) else q)).filter
          (fun q => !(q.1 == mid))
        callbacks := st.callbacks.filter (fun c => !(c == mid))
        disk := st.disk
        log := st.log ++
          (if st.callbacks.contains mid then [(failedSession p.2 msg).progress] else []) } := by
  have hfind2 := find?_sessMap hp (failedSession p.2 msg)
  unfold workerFail
  rw [hp]
  dsimp only
  rw [if_pos hdid]
  show cleanupDownload _ mid = _
  unfold cleanupDownload notifyProgress updateSession
  dsimp only
  rw [hfind2]
  by_cases hc : st.callbacks.contains mid = true <;> simp [hc]

/-! ## Invariant preservation, operation by operation -/

theorem inv_startDownload {st : ManagerState} (hinv : Inv st) (mid : String) :
    Inv (startDownload st mid).2 := by
  by_cases hd : isDownloading st mid = true
  · rw [startDownload_rejected_active hd]
    exact hinv
  · have hd' : isDownloading st mid = false := by simpa using hd
    by_cases hm : isModelDownloaded st mid = true
    · rw [startDownload_rejected_downloaded hd' hm]
      exact hinv
    · have hm' : isModelDownloaded st mid = false := by simpa using hm
      rw [startDownload_accepted hd' hm']
      exact invCore_insert hinv (not_mem_keys_of_not_downloading hd') rfl

theorem inv_pauseDownload {st : ManagerState} (hinv : Inv st) (mid : String) :
    Inv (pauseDownload st mid).2 := by
  cases hp : st.active.find? (fun q => q.1 == mid) with
  | none =>
    rw [pauseDownload_none hp]
    exact hinv
  | some p =>
    rw [pauseDownload_found hp]
    exact invCore_signal hinv hp (pausedSession p.2) rfl
      (fun r => { r with status := .paused }) (fun r => rfl) (fun r => rfl)

theorem inv_resumeDownload {st : ManagerState} (hinv : Inv st) (mid : String) :
    Inv (resumeDownload st mid).2 := by
  cases hp : st.active.find? (fun q => q.1 == mid) with
  | none =>
    rw [resumeDownload_none hp]
    exact hinv
  | some p =>
    rw [resumeDownload_found hp]
    exact invCore_signal hinv hp (resumedSession p.2) rfl
      (fun r => { r with status := .downloading }) (fun r => rfl) (fun r => rfl)

theorem inv_cancelDownload {st : ManagerState} (hinv : Inv st) (mid : String) :
    Inv (cancelDownload st mid).2 := by
  cases hp : st.active.find? (fun q => q.1 == mid) with
  | none =>
    rw [cancelDownload_none hp]
    exact hinv
  | some p =>
    rw [cancelDownload_found hp]
    show InvCore
      (dbComplete st.downloads p.2.download_id false (some "Download cancelled by user"))
      st.next_id
      ((st.active.map (fun q => if q.1 == mid then (q.1, cancelledSession p.2) else q)).filter
        (fun q => !(q.1 == mid)))
    rw [filter_updateSession]
    exact invCore_terminalAny hinv mid p.2.download_id
      (fun r => { r with status := .failed, error_message := some "Download cancelled by user" })
      (fun r => rfl) (fun r => rfl)

theorem inv_workerComplete {st : ManagerState} (hinv : Inv st) (mid : String) (s : Session)
    (measured : ℕ) : Inv (workerComplete st mid s measured) := by
  cases hp : st.active.find? (fun q => q.1 == mid) with
  | none =>
    rw [workerComplete_nofind hp]
    show InvCore (dbComplete st.downloads s.download_id true none) st.next_id
      (st.active.filter (fun q => !(q.1 == mid)))
    exact invCore_terminalAny hinv mid s.download_id
      (fun r => { r with status := .completed, error_message := none })
      (fun r => rfl) (fun r => rfl)
  | some p =>
    cases hdid : (p.2.download_id == s.download_id) with
    | false =>
      rw [workerComplete_stale hp hdid]
      show InvCore (dbComplete st.downloads s.download_id true none) st.next_id
        (st.active.filter (fun q => !(q.1 == mid)))
      exact invCore_terminalAny hinv mid s.download_id
        (fun r => { r with status := .completed, error_message := none })
        (fun r => rfl) (fun r => rfl)
    | true =>
      rw [workerComplete_found hp hdid]
      show InvCore (dbComplete st.downloads s.download_id true none) st.next_id
        ((st.active.map
            (fun q => if q.1 == mid then (q.1, completedSession p.2 measured) else q)).filter
          (fun q => !(q.1 == mid)))
      rw [filter_updateSession]
      exact invCore_terminalAny hinv mid s.download_id
        (fun r => { r with status := .completed, error_message := none })
        (fun r => rfl) (fun r => rfl)

theorem inv_workerFail {st : ManagerState} (hinv : Inv st) (mid : String) (s : Session)
    (msg : String) : Inv (workerFail st mid s msg) := by
  cases hp : st.active.find? (fun q => q.1 == mid) with
  | none =>
    rw [workerFail_nofind hp]
    show InvCore (dbComplete st.downloads s.download_id false (some msg)) st.next_id
      (st.active.filter (fun q => !(q.1 == mid)))
    exact invCore_terminalAny hinv mid s.download_id
      (fun r => { r with status := .failed, error_message := some msg })
      (fun r => rfl) (fun r => rfl)
  | some p =>
    cases hdid : (p.2.download_id == s.download_id) with
    | false =>
      rw [workerFail_stale hp hdid]
      show InvCore (dbComplete st.downloads s.download_id false (some msg)) st.next_id
        (st.active.filter (fun q => !(q.1 == mid)))
      exact invCore_terminalAny hinv mid s.download_id
        (fun r => { r with status := .failed, error_message := some msg })
        (fun r => rfl) (fun r => rfl)
    | true =>
      rw [workerFail_found hp hdid]
      show InvCore (dbComplete st.downloads s.download_id false (some msg)) st.next_id
        ((st.active.map (fun q => if q.1 == mid then (q.1, failedSession p.2 msg) else q)).filter
          (fun q => !(q.1 == mid)))
      rw [filter_updateSession]
      exact invCore_terminalAny hinv mid s.download_id
        (fun r => { r with status := .failed, error_message := some msg })
        (fun r => rfl) (fun r => rfl)

theorem inv_step {st : ManagerState} (hinv : Inv st) (e : Event) : Inv (step st e) := by
  cases e with
  | start mid => exact inv_startDownload hinv mid
  | pause mid => exact inv_pauseDownload hinv mid
  | resume mid => exact inv_resumeDownload hinv mid
  | cancel mid => exact inv_cancelDownload hinv mid
  | workerComplete mid s measured => exact inv_workerComplete hinv mid s measured
  | workerFail mid s msg => exact inv_workerFail hinv mid s msg
  | diskDelete path => exact hinv

/-- Every state reachable from a fresh downloader satisfies the invariant. -/
theorem reachable_inv {st : ManagerState} (h : Reachable st) : Inv st := by
  induction h with
  | init => exact inv_init
  | tick h e ih => exact inv_step ih e

/-! ## Claims -/

/-- C7 counterexample: the model identifier `"org/x-13b7b"` contains `"7b"` and
carries no weight-format metadata, yet `_estimate_model_size` returns the 26GB
value of the `"13b"` branch (tested earlier in the `elif` chain), not ~14GB. -/
theorem estimate_size_7b_counterexample :
    strContains (strLower "org/x-13b7b") "7b" = true ∧
    estimateModelSize none "org/x-13b7b" = 26000000000 ∧
    ¬ estimateModelSize none "org/x-13b7b" = 14000000000 := by
  refine ⟨by decide, by decide, by decide⟩

/-- C7 (amended): the estimate prefers `safetensors.total * 2` when the metadata
carries a non-zero parameter count; with no usable metadata it falls back to the
name lookup, and an identifier containing `"7b"` maps to the fixed 14GB value
provided it contains none of the markers tested earlier in the chain
(`"70b"`, `"72b"`, `"33b"`, `"34b"`, `"13b"`); with no marker at all the ~10GB
default applies. -/
theorem estimate_size_preference (t : ℕ) (mid : String) :
    (t ≠ 0 → estimateModelSize (some t) mid = t * 2) ∧
    (estimateModelSize (some 0) mid = nameSizeEstimate mid) ∧
    (strContains (strLower mid) "7b" = true →
     strContains (strLower mid) "70b" = false →
     strContains (strLower mid) "72b" = false →
     strContains (strLower mid) "33b" = false →
     strContains (strLower mid) "34b" = false →
     strContains (strLower mid) "13b" = false →
     estimateModelSize none mid = 14000000000) ∧
    (strContains (strLower mid) "70b" = false →
     strContains (strLower mid) "72b" = false →
     strContains (strLower mid) "33b" = false →
     strContains (strLower mid) "34b" = false →
     strContains (strLower mid) "13b" = false →
     strContains (strLower mid) "7b" = false →
     strContains (strLower mid) "3b" = false →
     estimateModelSize none mid = 10000000000) := by
  refine ⟨?_, ?_, ?_, ?_⟩
  · intro ht
    simp [estimateModelSize, ht]
  · simp [estimateModelSize]
  · intro h7 h70 h72 h33 h34 h13
    simp [estimateModelSize, nameSizeEstimate, h7, h70, h72, h33, h34, h13]
  · intro h70 h72 h33 h34 h13 h7 h3
    simp [estimateModelSize, nameSizeEstimate, h7, h70, h72, h33, h34, h13, h3]

/-- C7 witness: the amended preference order evaluated on concrete inputs. -/
theorem estimate_size_preference_witness :
    estimateModelSize (some 3500000000) "m" = 7000000000 ∧
    estimateModelSize none "org/llama-7b" = 14000000000 ∧
    estimateModelSize none "org/bert-base" = 10000000000 :=
  ⟨(estimate_size_preference 3500000000 "m").1 (by decide),
   (estimate_size_preference 3500000000 "org/llama-7b").2.2.1 (by decide) (by decide)
     (by decide) (by decide) (by decide) (by decide),
   (estimate_size_preference 3500000000 "org/bert-base").2.2.2 (by decide) (by decide)
     (by decide) (by decide) (by decide) (by decide) (by decide)⟩

/-- C8: in a monitor sample that shows growth, if the measured size exceeds the
current estimate then `total_bytes` becomes `size + size * 0.1` before the percent
is computed (and the percent is computed against the inflated total); every emitted
notification carries a percent in [0, 100]; with a zero total the bytes-based proxy
`min (size / 100MB * 100) 95` is used, which never exceeds 95. -/
theorem monitor_percent_bounds (st : MonState) (size : ℕ) (hT : 0 ≤ st.total_bytes) :
    (∀ n ∈ (monitorStep st size).2, 0 ≤ n.progress_percent ∧ n.progress_percent ≤ 100) ∧
    (size > st.last_size → 0 < st.total_bytes → st.total_bytes < (size : ℚ) →
      (monitorStep st size).1.total_bytes = (size : ℚ) + (size : ℚ) * (1 / 10) ∧
      (monitorStep st size).1.progress_percent =
        (size : ℚ) / ((size : ℚ) + (size : ℚ) * (1 / 10)) * 100) ∧
    (size > st.last_size → st.total_bytes = 0 →
      (monitorStep st size).1.progress_percent =
        min ((size : ℚ) / (100 * 1024 * 1024) * 100) 95 ∧
      (monitorStep st size).1.progress_percent ≤ 95) := by
  refine ⟨?_, ?_, ?_⟩
  · intro n hn
    unfold monitorStep at hn
    by_cases hg : size > st.last_size
    · rw [if_pos hg] at hn
      simp only [Option.mem_def, Option.some.injEq] at hn
      subst hn
      show 0 ≤ (if st.total_bytes > 0 then
          (size : ℚ) / (if st.total_bytes > 0 then
              (if (size : ℚ) > st.total_bytes then
                (size : ℚ) + (size : ℚ) * (1 / 10) else st.total_bytes)
            else st.total_bytes) * 100
        else min ((size : ℚ) / (100 * 1024 * 1024) * 100) 95) ∧
        (if st.total_bytes > 0 then
          (size : ℚ) / (if st.total_bytes > 0 then
              (if (size : ℚ) > st.total_bytes then
                (size : ℚ) + (size : ℚ) * (1 / 10) else st.total_bytes)
            else st.total_bytes) * 100
        else min ((size : ℚ) / (100 * 1024 * 1024) * 100) 95) ≤ 100
      have hs : 0 < size := Nat.lt_of_le_of_lt (Nat.zero_le _) hg
      have hs0 : (size : ℚ) ≠ 0 := by positivity
      by_cases hpos : st.total_bytes > 0
      · rw [if_pos hpos, if_pos hpos]
        by_cases hinf : (size : ℚ) > st.total_bytes
        · rw [if_pos hinf]
          have heq : (size : ℚ) / ((size : ℚ) + (size : ℚ) * (1 / 10)) * 100 = 1000 / 11 := by
            field_simp
            ring
          rw [heq]
          norm_num
        · rw [if_neg hinf]
          constructor
          · positivity
          · have h1 : (size : ℚ) / st.total_bytes ≤ 1 :=
              (div_le_one hpos).mpr (not_lt.mp hinf)
            calc (size : ℚ) / st.total_bytes * 100 ≤ 1 * 100 :=
                  mul_le_mul_of_nonneg_right h1 (by norm_num)
              _ = 100 := by norm_num
      · rw [if_neg hpos]
        constructor
        · exact le_min (by positivity) (by norm_num)
        · exact le_trans (min_le_right _ _) (by norm_num)
    · rw [if_neg hg] at hn
      by_cases hf : st.stable_count + 1 ≥ 20 ∧ size > minCompleteBytes
      · rw [if_pos hf] at hn
        simp only [Option.mem_def, Option.some.injEq] at hn
        subst hn
        norm_num
      · rw [if_neg hf] at hn
        simp at hn
  · intro hg hpos hinf
    unfold monitorStep
    rw [if_pos hg]
    show (if st.total_bytes > 0 then
        (if (size : ℚ) > st.total_bytes then
          (size : ℚ) + (size : ℚ) * (1 / 10) else st.total_bytes)
      else st.total_bytes) = (size : ℚ) + (size : ℚ) * (1 / 10) ∧
      (if st.total_bytes > 0 then
        (size : ℚ) / (if st.total_bytes > 0 then
            (if (size : ℚ) > st.total_bytes then
              (size : ℚ) + (size : ℚ) * (1 / 10) else st.total_bytes)
          else st.total_bytes) * 100
      else min ((size : ℚ) / (100 * 1024 * 1024) * 100) 95) =
        (size : ℚ) / ((size : ℚ) + (size : ℚ) * (1 / 10)) * 100
    rw [if_pos hpos, if_pos hpos, if_pos hinf]
    exact ⟨rfl, rfl⟩
  · intro hg hzero
    have hnpos : ¬ st.total_bytes > 0 := by
      rw [hzero]
      exact lt_irrefl 0
    unfold monitorStep
    rw [if_pos hg]
    show (if st.total_bytes > 0 then
        (size : ℚ) / (if st.total_bytes > 0 then
            (if (size : ℚ) > st.total_bytes then
              (size : ℚ) + (size : ℚ) * (1 / 10) else st.total_bytes)
          else st.total_bytes) * 100
      else min ((size : ℚ) / (100 * 1024 * 1024) * 100) 95) =
        min ((size : ℚ) / (100 * 1024 * 1024) * 100) 95 ∧
      (if st.total_bytes > 0 then
        (size : ℚ) / (if st.total_bytes > 0 then
            (if (size : ℚ) > st.total_bytes then
              (size : ℚ) + (size : ℚ) * (1 / 10) else st.total_bytes)
          else st.total_bytes) * 100
      else min ((size : ℚ) / (100 * 1024 * 1024) * 100) 95) ≤ 95
    rw [if_neg hnpos]
    exact ⟨rfl, min_le_right _ _⟩

/-- C8 witness: the bounds evaluated at a concrete in-flight state and sample. -/
theorem monitor_percent_bounds_witness :
    0 ≤ (monitorStep { status := PStatus.downloading, total_bytes := 100 } 50).1.progress_percent ∧
    (monitorStep { status := PStatus.downloading, total_bytes := 100 } 50).1.progress_percent
      ≤ 100 := by
  have h := (monitor_percent_bounds { status := PStatus.downloading, total_bytes := 100 } 50
    (by norm_num)).1
  exact h _ rfl

/-- C9: entering a sample with an in-flight status, the heuristic completion
detector fires exactly when the sample shows no growth, the consecutive no-growth
counter reaches 20 samples (10 seconds at the 0.5 s sampling interval), and the
measured size strictly exceeds the 50MB minimum; when it fires, the percent becomes
100, `total_bytes` becomes the measured size, the status becomes `completed`, and a
final notification with those values is emitted. -/
theorem heuristic_completion (st : MonState) (size : ℕ) (h : inFlight st.status = true) :
    ((monitorStep st size).1.status = PStatus.completed ↔
      (¬ size > st.last_size ∧ st.stable_count + 1 ≥ 20 ∧ size > minCompleteBytes)) ∧
    ((monitorStep st size).1.status = PStatus.completed →
      (monitorStep st size).1.progress_percent = 100 ∧
      (monitorStep st size).1.total_bytes = (size : ℚ) ∧
      (monitorStep st size).2 = some ⟨100, st.downloaded_bytes, (size : ℚ), .completed⟩) := by
  have hnc : ¬ st.status = PStatus.completed := by
    intro hc
    rw [hc] at h
    simp [inFlight] at h
  unfold monitorStep
  by_cases hg : size > st.last_size
  · rw [if_pos hg]
    constructor
    · constructor
      · intro hc
        exact absurd hc hnc
      · rintro ⟨hng, _⟩
        exact absurd hg hng
    · intro hc
      exact absurd hc hnc
  · rw [if_neg hg]
    by_cases hf : st.stable_count + 1 ≥ 20 ∧ size > minCompleteBytes
    · rw [if_pos hf]
      exact ⟨⟨fun _ => ⟨hg, hf⟩, fun _ => rfl⟩, fun _ => ⟨rfl, rfl, rfl⟩⟩
    · rw [if_neg hf]
      constructor
      · constructor
        · intro hc
          exact absurd hc hnc
        · rintro ⟨_, h1, h2⟩
          exact absurd ⟨h1, h2⟩ hf
      · intro hc
        exact absurd hc hnc

/-- C9 witness: the detector firing on the 20th consecutive stable sample of a
>50MB directory, and staying quiet one sample earlier. -/
theorem heuristic_completion_witness :
    (monitorStep { status := PStatus.downloading, downloaded_bytes := 52428801, last_size := 52428801, stable_count := 19 } 52428801).1.status = PStatus.completed ∧
    (monitorStep { status := PStatus.downloading, downloaded_bytes := 52428801, last_size := 52428801, stable_count := 19 } 52428801).1.progress_percent = 100 ∧
    (monitorStep { status := PStatus.downloading, downloaded_bytes := 52428801, last_size := 52428801, stable_count := 18 } 52428801).1.status ≠ PStatus.completed := by
  have h19 := heuristic_completion { status := PStatus.downloading, downloaded_bytes := 52428801, last_size := 52428801, stable_count := 19 } 52428801 rfl
  have h18 := heuristic_completion { status := PStatus.downloading, downloaded_bytes := 52428801, last_size := 52428801, stable_count := 18 } 52428801 rfl
  have hc := h19.1.mpr ⟨by decide, by decide, by decide⟩
  refine ⟨hc, (h19.2 hc).1, ?_⟩
  intro hc18
  have := h18.1.mp hc18
  exact absurd this.2.1 (by decide)

/-- Once the status is terminal, the monitor loop guard stops the run. -/
theorem runMonitor_not_inFlight {st : MonState} (h : ¬ inFlight st.status = true)
    (l : List ℕ) : runMonitor st l = (st, []) := by
  cases l with
  | nil => rfl
  | cons a t =>
    unfold runMonitor
    rw [if_neg h]

/-- C3 counterexample: seeding the monitor with the 14GB estimate for a `"7b"`
model, a sample of 13 999 999 999 bytes notifies ≈99.99999%, and the next sample of
14 000 000 001 bytes exceeds the estimate, triggers the 10% inflation, and notifies
≈90.9% — a strictly smaller percent on a non-final `downloading` notification. -/
theorem progress_monotone_counterexample :
    estimateModelSize none "org/llama-7b" = 14000000000 ∧
    ∃ n1 n2,
      (runMonitor (seedTotal { status := PStatus.downloading }
          (estimateModelSize none "org/llama-7b")) [13999999999, 14000000001]).2 = [n1, n2] ∧
      n1.status = PStatus.downloading ∧ n2.status = PStatus.downloading ∧
      n2.progress_percent < n1.progress_percent := by
  refine ⟨by decide, _, _, rfl, rfl, rfl, ?_⟩
  show ((14000000001 : ℕ) : ℚ) /
      (((14000000001 : ℕ) : ℚ) + ((14000000001 : ℕ) : ℚ) * (1 / 10)) * 100 <
    ((13999999999 : ℕ) : ℚ) / (((14000000000 : ℕ) : ℚ)) * 100
  push_cast
  norm_num

/-- Auxiliary for the amended C3: starting from a monitor state whose percent is
`last_size / T * 100` with a fixed total estimate `T > 0`, as long as every sample
stays within the estimate (so the 10% inflation never fires), the emitted percents
form a non-decreasing chain, all of them at least the current percent. -/
theorem runMonitor_mono_aux (T : ℚ) (hT : 0 < T) :
    ∀ (sizes : List ℕ) (st : MonState),
      st.total_bytes = T →
      st.progress_percent = (st.last_size : ℚ) / T * 100 →
      (st.last_size : ℚ) ≤ T →
      (∀ s ∈ sizes, (s : ℚ) ≤ T) →
      List.Chain' (fun a b => a.progress_percent ≤ b.progress_percent)
        (runMonitor st sizes).2 ∧
      ∀ n ∈ (runMonitor st sizes).2, st.progress_percent ≤ n.progress_percent := by
  intro sizes
  induction sizes with
  | nil =>
    intro st _ _ _ _
    exact ⟨List.chain'_nil, fun n hn => absurd hn (List.not_mem_nil n)⟩
  | cons size rest ih =>
    intro st hTeq hpct hlast hb
    have hrun : runMonitor st (size :: rest) =
        if inFlight st.status = true then
          ((runMonitor (monitorStep st size).1 rest).1,
           (monitorStep st size).2.toList ++ (runMonitor (monitorStep st size).1 rest).2)
        else (st, []) := rfl
    by_cases hfl : inFlight st.status = true
    · rw [hrun, if_pos hfl]
      by_cases hg : size > st.last_size
      · have hsT : (size : ℚ) ≤ T := hb size (List.mem_cons_self size rest)
        have hstep : monitorStep st size =
            ({ st with downloaded_bytes := size, total_bytes := T, progress_percent := (size : ℚ) / T * 100, last_size := size, stable_count := 0 }, some ⟨(size : ℚ) / T * 100, size, T, st.status⟩) := by
          unfold monitorStep
          rw [if_pos hg, hTeq]
          dsimp only
          rw [if_pos hT, if_neg (not_lt.mpr hsT), if_pos hT]
        rw [hstep]
        dsimp only
        simp only [Option.toList_some, List.singleton_append]
        have hmono : st.progress_percent ≤ (size : ℚ) / T * 100 := by
          rw [hpct]
          have hle : (st.last_size : ℚ) ≤ (size : ℚ) := by
            exact_mod_cast Nat.le_of_lt hg
          gcongr
        obtain ⟨ihc, ihb⟩ := ih
          { st with downloaded_bytes := size, total_bytes := T, progress_percent := (size : ℚ) / T * 100, last_size := size, stable_count := 0 }
          rfl rfl hsT (fun s hs => hb s (List.mem_cons_of_mem size hs))
        constructor
        · rw [List.chain'_cons']
          exact ⟨fun b hbh => ihb b (List.mem_of_mem_head? hbh), ihc⟩
        · intro n hn
          rcases List.mem_cons.mp hn with rfl | hn
          · exact hmono
          · exact le_trans hmono (ihb n hn)
      · by_cases hf : st.stable_count + 1 ≥ 20 ∧ size > minCompleteBytes
        · have hstep : monitorStep st size =
              ({ st with stable_count := st.stable_count + 1, progress_percent := 100, total_bytes := (size : ℚ), status := PStatus.completed }, some ⟨100, st.downloaded_bytes, (size : ℚ), PStatus.completed⟩) := by
            unfold monitorStep
            rw [if_neg hg, if_pos hf]
          rw [hstep]
          dsimp only
          rw [runMonitor_not_inFlight (by simp [inFlight]) rest]
          dsimp only
          simp only [Option.toList_some, List.singleton_append, List.append_nil]
          constructor
          · exact List.chain'_singleton _
          · intro n hn
            rcases List.mem_cons.mp hn with rfl | hn
            · show st.progress_percent ≤ 100
              rw [hpct]
              have h1 : (st.last_size : ℚ) / T ≤ 1 := (div_le_one hT).mpr hlast
              calc (st.last_size : ℚ) / T * 100 ≤ 1 * 100 :=
                    mul_le_mul_of_nonneg_right h1 (by norm_num)
                _ = 100 := by norm_num
            · exact absurd hn (List.not_mem_nil n)
        · have hstep : monitorStep st size =
              ({ st with stable_count := st.stable_count + 1 }, none) := by
            unfold monitorStep
            rw [if_neg hg, if_neg hf]
          rw [hstep]
          dsimp only
          simp only [Option.toList_none, List.nil_append]
          obtain ⟨ihc, ihb⟩ := ih { st with stable_count := st.stable_count + 1 }
            hTeq hpct hlast (fun s hs => hb s (List.mem_cons_of_mem size hs))
          exact ⟨ihc, fun n hn => ihb n hn⟩
    · rw [runMonitor_not_inFlight hfl (size :: rest)]
      exact ⟨List.chain'_nil, fun n hn => absurd hn (List.not_mem_nil n)⟩

/-- C3 (amended): in a monitor run whose total estimate `T` is never exceeded by a
measured size, the notification percents are non-decreasing, including a final
heuristic-completion jump to 100; the exception to monotonicity is exactly the
sample where the measured size first exceeds the estimate, whose 10% inflation may
lower the percent (see the counterexample). -/
theorem monitor_monotone_without_inflation (T : ℚ) (hT : 0 < T) (sizes : List ℕ)
    (hb : ∀ s ∈ sizes, (s : ℚ) ≤ T) :
    List.Chain' (fun a b => a.progress_percent ≤ b.progress_percent)
      (runMonitor { status := PStatus.downloading, total_bytes := T } sizes).2 :=
  (runMonitor_mono_aux T hT sizes { status := PStatus.downloading, total_bytes := T }
    rfl (by simp) hT.le hb).1

/-- C3 witness: the amended monotonicity on a concrete inflation-free run. -/
theorem monitor_monotone_without_inflation_witness :
    List.Chain' (fun a b => a.progress_percent ≤ b.progress_percent)
      (runMonitor { status := PStatus.downloading, total_bytes := (100 : ℚ) }
        [10, 60, 60, 80]).2 :=
  monitor_monotone_without_inflation 100 (by norm_num) [10, 60, 60, 80] (by decide)

/-- A model id that is not downloading has no entry in `active_downloads`. -/
theorem find?_eq_none_of_not_downloading {st : ManagerState} {mid : String}
    (h : isDownloading st mid = false) :
    st.active.find? (fun q => q.1 == mid) = none := by
  unfold isDownloading at h
  cases hf : st.active.find? (fun q => q.1 == mid) with
  | none => rfl
  | some p =>
    rw [hf] at h
    simp at h

/-- C1 (refuted — code bug): the claimed invariant "at most one non-terminal
`downloads` row per model id in every reachable state" is false of the program.
The worker thread writes its terminal status to its *captured* `download_id`, but
its `finally`-block `_cleanup_download(model_id)` removes whichever session
*currently* holds the key (downloader.py 297-311).  After `start`, `cancel`,
`start`, the first worker's failure epilogue marks its own (already-failed) row
and deregisters the second attempt's session while that attempt's row stays
`downloading`; a further `start` is then accepted and adds a second `downloading`
row.  The reachable state below has `nonterminalCount = 2` for `"org/m"`. -/
theorem attempt_uniqueness_violation :
    Reachable (List.foldl step {}
      [Event.start "org/m", Event.cancel "org/m", Event.start "org/m",
       Event.workerFail "org/m" (freshSession {} "org/m") "network error",
       Event.start "org/m"]) ∧
    nonterminalCount (List.foldl step {}
      [Event.start "org/m", Event.cancel "org/m", Event.start "org/m",
       Event.workerFail "org/m" (freshSession {} "org/m") "network error",
       Event.start "org/m"]) "org/m" = 2 := by
  refine ⟨?_, by decide⟩
  exact Reachable.tick (Reachable.tick (Reachable.tick (Reachable.tick
    (Reachable.tick Reachable.init (Event.start "org/m")) (Event.cancel "org/m"))
    (Event.start "org/m"))
    (Event.workerFail "org/m" (freshSession {} "org/m") "network error"))
    (Event.start "org/m")

/-- C2: `start_download` returns `False` without side effects when a session is
already active, or when a ModelRecord exists whose `local_path` still exists on
disk; but a stale record — one whose `local_path` is gone — does not block it:
the call returns `True`, registers a fresh `downloads` row with status
`downloading`, and the id becomes active. -/
theorem start_rejection_and_stale_record (st : ManagerState) (mid : String) :
    (isDownloading st mid = true → startDownload st mid = (false, st)) ∧
    (isDownloading st mid = false → isModelDownloaded st mid = true →
      startDownload st mid = (false, st)) ∧
    (isDownloading st mid = false →
      ∀ m, getModel st mid = some m → st.disk.contains m.local_path = false →
        (startDownload st mid).1 = true ∧
        isDownloading (startDownload st mid).2 mid = true ∧
        ({ id := st.next_id, model_id := mid, status := PStatus.downloading } : DownloadRow) ∈
          (startDownload st mid).2.downloads) := by
  refine ⟨startDownload_rejected_active, startDownload_rejected_downloaded, ?_⟩
  intro hd m hm hdisk
  have hm' : isModelDownloaded st mid = false := by
    unfold isModelDownloaded
    rw [hm]
    exact hdisk
  rw [startDownload_accepted hd hm']
  refine ⟨rfl, ?_, ?_⟩
  · show isDownloading
      { downloads := st.downloads ++
          [{ id := st.next_id, model_id := mid, status := .downloading }]
        models := st.models
        next_id := st.next_id + 1
        active := st.active ++ [(mid, freshSession st mid)]
        callbacks := st.callbacks ++ [mid]
        disk := mkdirPath st.disk (modelDirPath mid)
        log := st.log } mid = true
    unfold isDownloading
    rw [List.find?_isSome]
    exact ⟨(mid, freshSession st mid),
      List.mem_append_right _ (List.mem_singleton_self _), by simp⟩
  · exact List.mem_append_right _ (List.mem_singleton_self _)

/-- C2 witness: a stale record (`local_path` not on disk) does not block `start`. -/
theorem start_rejection_and_stale_record_witness :
    (startDownload { models := [{ model_id := "org/model", display_name := "model", local_path := "models/org_model", size_bytes := 7 }] } "org/model").1 = true := by
  have h := (start_rejection_and_stale_record
    { models := [{ model_id := "org/model", display_name := "model", local_path := "models/org_model", size_bytes := 7 }] } "org/model").2.2
    (by decide)
    { model_id := "org/model", display_name := "model", local_path := "models/org_model", size_bytes := 7 }
    (by decide) (by decide)
  exact h.1

/-- After `_cleanup_download` filters `mid` out, no lookup for `mid` succeeds. -/
theorem not_downloading_after_filter (l : List (String × Session)) (mid : String) :
    (l.filter (fun q => !(q.1 == mid))).find? (fun q => q.1 == mid) = none := by
  rw [List.find?_eq_none]
  intro x hx
  have h2 := (List.mem_filter.mp hx).2
  simp at h2 ⊢
  exact h2

/-- `mid` is gone from `progress_callbacks` after the cleanup filter. -/
theorem not_mem_filter_self (l : List String) (mid : String) :
    mid ∉ l.filter (fun c => !(c == mid)) := by
  intro hmem
  have h2 := (List.mem_filter.mp hmem).2
  simp at h2

/-- Manager queries on a state whose `active_downloads` has no entry for `mid`. -/
theorem queries_of_find?_none (st' : ManagerState) (mid : String)
    (hAct : st'.active.find? (fun q => q.1 == mid) = none) :
    isDownloading st' mid = false ∧ getDownloadProgress st' mid = none := by
  unfold isDownloading getDownloadProgress
  rw [hAct]
  exact ⟨rfl, rfl⟩

/-- Manager queries after `_cleanup_download` filtered `mid` out of the map. -/
theorem queries_of_filter (st' : ManagerState) (mid : String) (l : List (String × Session))
    (hA : st'.active = l.filter (fun q => !(q.1 == mid))) :
    isDownloading st' mid = false ∧ getDownloadProgress st' mid = none := by
  refine queries_of_find?_none st' mid ?_
  rw [hA]
  exact not_downloading_after_filter l mid

/-- `INSERT OR REPLACE` followed by `get_model` returns the fresh record. -/
theorem getModel_upsert (l : List ModelRow) (m : ModelRow) :
    (upsertModel l m).find? (fun r => r.model_id == m.model_id) = some m := by
  unfold upsertModel
  by_cases h : l.any (fun r => r.model_id == m.model_id) = true
  · rw [if_pos h, List.find?_map]
    have hcomp : ((fun r : ModelRow => r.model_id == m.model_id) ∘
        (fun r => if r.model_id == m.model_id then m else r)) =
        (fun r => r.model_id == m.model_id) := by
      funext r
      show ((if r.model_id == m.model_id then m else r).model_id == m.model_id) =
        (r.model_id == m.model_id)
      split <;> simp_all
    rw [hcomp]
    obtain ⟨r1, hr1, hp1⟩ := List.any_eq_true.mp h
    cases hf : l.find? (fun r => r.model_id == m.model_id) with
    | none =>
      rw [List.find?_eq_none] at hf
      exact absurd hp1 (hf r1 hr1)
    | some r2 =>
      have hp2 := List.find?_some hf
      simp only [Option.map_some']
      rw [if_pos hp2]
  · rw [if_neg h, List.find?_append]
    have h1 : l.find? (fun r => r.model_id == m.model_id) = none := by
      rw [List.find?_eq_none]
      intro x hx hpx
      exact h (List.any_eq_true.mpr ⟨x, hx, hpx⟩)
    rw [h1]
    simp

/-- C5: `cancel_download` on an id with no active session returns `False` and
leaves the whole state — Record Store included — untouched; on an active session
it returns `True`, marks the session's attempt row `failed` with error message
"Download cancelled by user", and removes the id from the active map and the
callback map. -/
theorem cancel_contract (st : ManagerState) (h : Reachable st) (mid : String) :
    (isDownloading st mid = false → cancelDownload st mid = (false, st)) ∧
    (∀ p, st.active.find? (fun q => q.1 == mid) = some p →
      (cancelDownload st mid).1 = true ∧
      isDownloading (cancelDownload st mid).2 mid = false ∧
      mid ∉ (cancelDownload st mid).2.callbacks ∧
      ∃ r ∈ (cancelDownload st mid).2.downloads,
        r.id = p.2.download_id ∧ r.model_id = mid ∧ r.status = PStatus.failed ∧
        r.error_message = some "Download cancelled by user") := by
  have hinv := reachable_inv h
  constructor
  · intro hd
    exact cancelDownload_none (find?_eq_none_of_not_downloading hd)
  · intro p hp
    have hpmem := List.mem_of_find?_eq_some hp
    have hpfst : p.1 = mid := by simpa using List.find?_some hp
    rw [cancelDownload_found hp]
    refine ⟨rfl, (queries_of_filter _ mid
      (st.active.map (fun q => if q.1 == mid then (q.1, cancelledSession p.2) else q)) rfl).1,
      not_mem_filter_self st.callbacks mid, ?_⟩
    obtain ⟨r0, hr0, hid0⟩ := hinv.sessionHasRow p hpmem
    have hmod : r0.model_id = mid := by
      rw [hinv.sessionRow p hpmem r0 hr0 hid0, hpfst]
    have hmem2 : (if r0.id == p.2.download_id then ({ r0 with status := PStatus.failed, error_message := some "Download cancelled by user" } : DownloadRow) else r0) ∈ dbComplete st.downloads p.2.download_id false (some "Download cancelled by user") :=
      rowUpdate_mem_image hr0
    rw [if_pos (by simp [hid0])] at hmem2
    exact ⟨_, hmem2, hid0, hmod, rfl, rfl⟩

/-- C5 witness: cancelling the only active download. -/
theorem cancel_contract_witness :
    (cancelDownload (step {} (Event.start "org/model")) "org/model").1 = true ∧
    isDownloading (cancelDownload (step {} (Event.start "org/model")) "org/model").2
      "org/model" = false := by
  have h := (cancel_contract (step {} (Event.start "org/model"))
    (Reachable.tick Reachable.init (Event.start "org/model")) "org/model").2
    ("org/model", { download_id := 1, local_path := "models/org_model", progress := { model_id := "org/model" } })
    (by decide)
  exact ⟨h.1, h.2.1⟩

/-- C6: `pause_download` and `resume_download` both return `False` with no state
change when no session is active for the id; for an active session, pause followed
immediately by resume succeeds at both steps, leaves `downloaded_bytes` and
`total_bytes` of the snapshot exactly as they were, and returns both the snapshot's
and the attempt row's status to `downloading`. -/
theorem pause_resume_round_trip (st : ManagerState) (mid : String) :
    (isDownloading st mid = false →
      pauseDownload st mid = (false, st) ∧ resumeDownload st mid = (false, st)) ∧
    (∀ p, st.active.find? (fun q => q.1 == mid) = some p →
      (pauseDownload st mid).1 = true ∧
      getDownloadProgress (pauseDownload st mid).2 mid =
        some { p.2.progress with status := PStatus.paused } ∧
      (resumeDownload (pauseDownload st mid).2 mid).1 = true ∧
      getDownloadProgress (resumeDownload (pauseDownload st mid).2 mid).2 mid =
        some { p.2.progress with status := PStatus.downloading } ∧
      (∀ r ∈ (resumeDownload (pauseDownload st mid).2 mid).2.downloads,
        r.id = p.2.download_id → r.status = PStatus.downloading)) := by
  constructor
  · intro hd
    have hn := find?_eq_none_of_not_downloading hd
    exact ⟨pauseDownload_none hn, resumeDownload_none hn⟩
  · intro p hp
    have hp1 : (pauseDownload st mid).2.active.find? (fun q => q.1 == mid) =
        some (p.1, pausedSession p.2) := by
      rw [pauseDownload_found hp]
      show ((st.active.map (fun q => if q.1 == mid then (q.1, pausedSession p.2) else q)).find?
        (fun q => q.1 == mid)) = some (p.1, pausedSession p.2)
      exact find?_sessMap hp _
    have hp2 : (resumeDownload (pauseDownload st mid).2 mid).2.active.find?
        (fun q => q.1 == mid) = some (p.1, resumedSession (pausedSession p.2)) := by
      rw [resumeDownload_found hp1]
      show (((pauseDownload st mid).2.active.map
        (fun q => if q.1 == mid then (q.1, resumedSession (pausedSession p.2)) else q)).find?
        (fun q => q.1 == mid)) = some (p.1, resumedSession (pausedSession p.2))
      exact find?_sessMap hp1 _
    refine ⟨?_, ?_, ?_, ?_, ?_⟩
    · rw [pauseDownload_found hp]
    · unfold getDownloadProgress
      rw [hp1]
      rfl
    · rw [resumeDownload_found hp1]
    · unfold getDownloadProgress
      rw [hp2]
      rfl
    · intro r hr hid
      have hr2 : r ∈ dbResume (pauseDownload st mid).2.downloads
          (pausedSession p.2).download_id := by
        rw [resumeDownload_found hp1] at hr
        exact hr
      have hr3 : r ∈ dbResume (dbPause st.downloads p.2.download_id) p.2.download_id := by
        rw [pauseDownload_found hp] at hr2
        exact hr2
      obtain ⟨r1, hr1, heq1⟩ := mem_rowUpdate hr3
      by_cases hcond : (r1.id == p.2.download_id) = true
      · rw [if_pos hcond] at heq1
        rw [← heq1]
      · rw [if_neg hcond] at heq1
        rw [← heq1] at hid
        exact absurd (by simp [hid]) hcond

/-- C6 witness: pause then resume on the only active download restores the
snapshot with its byte counters intact and status `downloading`. -/
theorem pause_resume_round_trip_witness :
    getDownloadProgress
      (resumeDownload (pauseDownload (step {} (Event.start "org/model")) "org/model").2
        "org/model").2 "org/model" =
      some { model_id := "org/model", status := PStatus.downloading } := by
  have h := (pause_resume_round_trip (step {} (Event.start "org/model")) "org/model").2
    ("org/model", { download_id := 1, local_path := "models/org_model", progress := { model_id := "org/model" } })
    (by decide)
  exact h.2.2.2.1

/-- C10: once a session reaches a terminal outcome — the worker finishing with
success or failure, or a cancel — the model id is removed from both
`active_downloads` and `progress_callbacks`: `is_downloading` answers `False`,
`get_download_progress` answers `None`, and no callback remains registered. -/
theorem terminal_cleanup (st : ManagerState) (mid : String) (e : Event)
    (hact : isDownloading st mid = true)
    (he : e = Event.cancel mid ∨ (∃ s n, e = Event.workerComplete mid s n) ∨
      ∃ s msg, e = Event.workerFail mid s msg) :
    isDownloading (step st e) mid = false ∧
    getDownloadProgress (step st e) mid = none ∧
    mid ∉ (step st e).callbacks := by
  obtain ⟨p, hp⟩ := Option.isSome_iff_exists.mp hact
  rcases he with rfl | ⟨s, n, rfl⟩ | ⟨s, msg, rfl⟩
  · show isDownloading (cancelDownload st mid).2 mid = false ∧
      getDownloadProgress (cancelDownload st mid).2 mid = none ∧
      mid ∉ (cancelDownload st mid).2.callbacks
    rw [cancelDownload_found hp]
    refine ⟨?_, ?_, not_mem_filter_self st.callbacks mid⟩
    · exact (queries_of_filter _ mid
        (st.active.map (fun q => if q.1 == mid then (q.1, cancelledSession p.2) else q)) rfl).1
    · exact (queries_of_filter _ mid
        (st.active.map (fun q => if q.1 == mid then (q.1, cancelledSession p.2) else q)) rfl).2
  · show isDownloading (workerComplete st mid s n) mid = false ∧
      getDownloadProgress (workerComplete st mid s n) mid = none ∧
      mid ∉ (workerComplete st mid s n).callbacks
    cases hdid : (p.2.download_id == s.download_id) with
    | false =>
      rw [workerComplete_stale hp hdid]
      refine ⟨?_, ?_, not_mem_filter_self st.callbacks mid⟩
      · exact (queries_of_filter _ mid st.active rfl).1
      · exact (queries_of_filter _ mid st.active rfl).2
    | true =>
      rw [workerComplete_found hp hdid]
      refine ⟨?_, ?_, not_mem_filter_self st.callbacks mid⟩
      · exact (queries_of_filter _ mid
          (st.active.map (fun q => if q.1 == mid then (q.1, completedSession p.2 n) else q)) rfl).1
      · exact (queries_of_filter _ mid
          (st.active.map (fun q => if q.1 == mid then (q.1, completedSession p.2 n) else q)) rfl).2
  · show isDownloading (workerFail st mid s msg) mid = false ∧
      getDownloadProgress (workerFail st mid s msg) mid = none ∧
      mid ∉ (workerFail st mid s msg).callbacks
    cases hdid : (p.2.download_id == s.download_id) with
    | false =>
      rw [workerFail_stale hp hdid]
      refine ⟨?_, ?_, not_mem_filter_self st.callbacks mid⟩
      · exact (queries_of_filter _ mid st.active rfl).1
      · exact (queries_of_filter _ mid st.active rfl).2
    | true =>
      rw [workerFail_found hp hdid]
      refine ⟨?_, ?_, not_mem_filter_self st.callbacks mid⟩
      · exact (queries_of_filter _ mid
          (st.active.map (fun q => if q.1 == mid then (q.1, failedSession p.2 msg) else q)) rfl).1
      · exact (queries_of_filter _ mid
          (st.active.map (fun q => if q.1 == mid then (q.1, failedSession p.2 msg) else q)) rfl).2

/-- C10 witness: cancelling the only active download removes it from both maps. -/
theorem terminal_cleanup_witness :
    isDownloading (step (step {} (Event.start "org/model")) (Event.cancel "org/model"))
      "org/model" = false ∧
    getDownloadProgress (step (step {} (Event.start "org/model")) (Event.cancel "org/model"))
      "org/model" = none := by
  have h := terminal_cleanup (step {} (Event.start "org/model")) "org/model"
    (Event.cancel "org/model") (by decide) (Or.inl rfl)
  exact ⟨h.1, h.2.1⟩

/-- C4: when `snapshot_download` returns without error for an active session, the
final directory-size measurement is authoritative: the ModelRecord is upserted with
`size_bytes` equal to the measured size (and the session's destination path), both
progress notifications of the epilogue carry status `completed` with
`progress_percent = 100` and `downloaded_bytes = total_bytes = measured`, and the
attempt row of this session is marked `completed`. -/
theorem completion_final_size (st : ManagerState) (h : Reachable st) (mid : String)
    (measured : ℕ) (p : String × Session)
    (hp : st.active.find? (fun q => q.1 == mid) = some p)
    (hcb : st.callbacks.contains mid = true) :
    (∃ m, getModel (workerComplete st mid p.2 measured) mid = some m ∧
      m.size_bytes = measured ∧ m.local_path = p.2.local_path) ∧
    (∃ n : DownloadProgress,
      (workerComplete st mid p.2 measured).log = st.log ++ [n, n] ∧
      n.status = PStatus.completed ∧ n.progress_percent = 100 ∧
      n.downloaded_bytes = measured ∧ n.total_bytes = (measured : ℚ)) ∧
    (∃ r ∈ (workerComplete st mid p.2 measured).downloads,
      r.id = p.2.download_id ∧ r.model_id = mid ∧ r.status = PStatus.completed) := by
  have hinv := reachable_inv h
  have hpmem := List.mem_of_find?_eq_some hp
  have hpfst : p.1 = mid := by simpa using List.find?_some hp
  rw [workerComplete_found hp (by simp)]
  refine ⟨?_, ?_, ?_⟩
  · refine ⟨{ model_id := mid, display_name := lastComponent mid, local_path := p.2.local_path, size_bytes := measured }, ?_, rfl, rfl⟩
    exact getModel_upsert st.models { model_id := mid, display_name := lastComponent mid, local_path := p.2.local_path, size_bytes := measured }
  · refine ⟨(completedSession p.2 measured).progress, ?_, rfl, rfl, rfl, rfl⟩
    show st.log ++
        (if st.callbacks.contains mid then [(completedSession p.2 measured).progress] else []) ++
        (if st.callbacks.contains mid then [(completedSession p.2 measured).progress] else []) =
      st.log ++ [(completedSession p.2 measured).progress, (completedSession p.2 measured).progress]
    rw [if_pos hcb]
    simp
  · obtain ⟨r0, hr0, hid0⟩ := hinv.sessionHasRow p hpmem
    have hmod : r0.model_id = mid := by
      rw [hinv.sessionRow p hpmem r0 hr0 hid0, hpfst]
    have hmem2 : (if r0.id == p.2.download_id then ({ r0 with status := PStatus.completed, error_message := none } : DownloadRow) else r0) ∈ dbComplete st.downloads p.2.download_id true none :=
      rowUpdate_mem_image hr0
    rw [if_pos (by simp [hid0])] at hmem2
    exact ⟨_, hmem2, hid0, hmod, rfl⟩

/-- C4 witness: completing the only active download records the measured size. -/
theorem completion_final_size_witness :
    (getModel (workerComplete (step {} (Event.start "org/model")) "org/model"
      { download_id := 1, local_path := "models/org_model", progress := { model_id := "org/model" } } 999)
      "org/model").map ModelRow.size_bytes = some 999 := by
  have h := completion_final_size (step {} (Event.start "org/model"))
    (Reachable.tick Reachable.init (Event.start "org/model")) "org/model" 999
    ("org/model", { download_id := 1, local_path := "models/org_model", progress := { model_id := "org/model" } })
    (by decide) (by decide)
  obtain ⟨⟨m, hm, hsz, _⟩, _, _⟩ := h
  rw [hm]
  simp [hsz]

end Termitas
